import Mathlib

/-!
Verification of the gitkit session command pipeline.

Go strings are modelled as `List Char` (`Str`).  Each Go source file is
embedded in its own namespace; library calls from Go's `strings` package are
modelled by small executable helpers, each annotated with the call it embeds.
The repository snapshot contains two versions of `parseRepoName`
(`git_command.go` and the unnamed file `part_000`); both are embedded.
-/

namespace Gitkit

abbrev Str := List Char

/-- Model of Go `strings.CutPrefix(s, pre)`: removes `pre` from the front of
`s` when present, reporting whether it did. -/
def cutPrefixGo (s pre : Str) : Str × Bool :=
  if pre.isPrefixOf s then (s.drop pre.length, true) else (s, false)

/-- Model of Go `strings.CutSuffix(s, suf)`: removes `suf` from the end of
`s` when present, reporting whether it did. -/
def cutSuffix (s suf : Str) : Str × Bool :=
  if suf.isSuffixOf s then (s.take (s.length - suf.length), true) else (s, false)

/-- Model of Go `strings.Replace(s, string(c), "", 1)` for a one-character
pattern: removes the first occurrence of `c`, wherever it is. -/
def removeFirstChar (c : Char) : Str → Str
  | [] => []
  | x :: xs => if x = c then xs else x :: removeFirstChar c xs

/-- Model of Go `strings.Replace(s, string(c), "", -1)`: removes every
occurrence of `c`. -/
def removeAllChar (c : Char) (s : Str) : Str := s.filter (fun x => x ≠ c)

/-- Model of Go `strings.TrimLeft(s, cutset)`: drops leading characters that
belong to `cutset`. -/
def trimLeftIn (cutset : Str) : Str → Str
  | [] => []
  | c :: cs => if cutset.contains c then trimLeftIn cutset cs else c :: cs

/-- The `GitCommand` struct of `git_command.go`. -/
structure GitCommand where
  Command : Str
  Repo : Str
  Original : Str
deriving Repr, DecidableEq

/-- Character class `[-|\s]` of `gitCommandRegex` (RE2 `\s` is tab, newline,
form feed, carriage return, space). -/
def sepClass (c : Char) : Bool :=
  c = '-' || c = '|' || c = '\t' || c = '\n' || c = '\x0c' || c = '\r' || c = ' '

def uploadPackBody : Str := "upload-pack".toList

def uploadArchiveBody : Str := "upload-archive".toList

def receivePackBody : Str := "receive-pack".toList

/-- The verb alternation
`(git[-|\s]upload-pack|git[-|\s]upload-archive|git[-|\s]receive-pack)` of
`gitCommandRegex`, anchored at the start of the string; returns the text of
capture group 1 and the remainder.  The three alternatives are mutually
exclusive as literals, so trying them in the regex's order is exhaustive. -/
def matchVerb : Str → Option (Str × Str)
  | 'g' :: 'i' :: 't' :: c :: rest =>
    if sepClass c then
      if uploadPackBody.isPrefixOf rest then
        some ('g' :: 'i' :: 't' :: c :: uploadPackBody, rest.drop uploadPackBody.length)
      else if uploadArchiveBody.isPrefixOf rest then
        some ('g' :: 'i' :: 't' :: c :: uploadArchiveBody, rest.drop uploadArchiveBody.length)
      else if receivePackBody.isPrefixOf rest then
        some ('g' :: 'i' :: 't' :: c :: receivePackBody, rest.drop receivePackBody.length)
      else none
    else none
  | _ => none

/-- Full-string match of
`^(git[-|\s]upload-pack|git[-|\s]upload-archive|git[-|\s]receive-pack) '(.*)'$`
(RE2, no multiline flag): after the verb comes a space and an opening quote;
`$` pins the closing quote to the last character, so capture group 2 is
exactly the text between the opening quote and that last character, and `.`
forbids newlines inside it. -/
def matchGitCommandRegex (s : Str) : Option (Str × Str) :=
  match matchVerb s with
  | none => none
  | some (verb, rest) =>
    match rest with
    | ' ' :: '\'' :: t =>
      if t.getLast? = some '\'' ∧ '\n' ∉ t.dropLast then some (verb, t.dropLast)
      else none
    | _ => none

namespace Part000

/-- The `parseRepoName` of the unnamed source file `part_000`:
`strings.CutPrefix(s, "/")` then `strings.CutSuffix(·, ".git")`. -/
def parseRepoName (s : Str) : Str :=
  (cutSuffix (cutPrefixGo s ['/']).1 ".git".toList).1

/-- The `ParseGitCommand` of `part_000`: `none` models the
`invalid git command` error. -/
def ParseGitCommand (cmd : Str) : Option GitCommand :=
  match matchGitCommandRegex cmd with
  | none => none
  | some (v, p) => some ⟨v, parseRepoName p, cmd⟩

end Part000

namespace GitCommandGo

/-- The `parseRepoName` of `git_command.go`:
`strings.CutSuffix(strings.Replace(s, "/", "", 1), ".git")` — note the
`Replace` removes the first `/` anywhere in `s`, not only a leading one. -/
def parseRepoName (s : Str) : Str :=
  (cutSuffix (removeFirstChar '/' s) ".git".toList).1

/-- The `ParseGitCommand` of `git_command.go`: `none` models the
`invalid git command` error. -/
def ParseGitCommand (cmd : Str) : Option GitCommand :=
  match matchGitCommandRegex cmd with
  | none => none
  | some (v, p) => some ⟨v, parseRepoName p, cmd⟩

end GitCommandGo

lemma cutSuffix_append (a suf : Str) : (cutSuffix (a ++ suf) suf).1 = a := by
  simp [cutSuffix, List.isSuffixOf_iff_suffix, List.suffix_append, List.length_append,
    List.take_left]

lemma cutSuffix_eq_self {s suf : Str} (h : ¬ suf <:+ s) : (cutSuffix s suf).1 = s := by
  simp [cutSuffix, List.isSuffixOf_iff_suffix, h]

lemma cutSuffix_fst_pre (s suf : Str) : (cutSuffix s suf).1 <+: s := by
  unfold cutSuffix
  split
  · exact List.take_prefix _ _
  · exact List.prefix_refl _

lemma head?_eq_or_of_pre {t s : Str} (h : t <+: s) :
    t.head? = none ∨ t.head? = s.head? := by
  obtain ⟨r, rfl⟩ := h
  cases t <;> simp

lemma singleton_isPrefixOf_iff {c : Char} {s : Str} :
    (([c] : Str).isPrefixOf s = true) ↔ s.head? = some c := by
  cases s with
  | nil => simp [List.isPrefixOf]
  | cons x xs =>
    simp only [ List.isPrefixOf_iff_prefix, List.cons_prefix_cons, List.nil_prefix, and_true,
      List.head?_cons, Option.some.injEq]
    exact eq_comm

lemma cutPrefixGo_slash_suffix (s : Str) : (cutPrefixGo s ['/']).1 <:+ s := by
  unfold cutPrefixGo
  split
  · exact List.drop_suffix _ _
  · exact List.suffix_refl _

lemma head?_some_slash {t : Str} (hh : t.head? = some '/') : ∃ u, t = '/' :: u := by
  cases t with
  | nil => simp at hh
  | cons a u =>
    simp at hh
    subst hh
    exact ⟨u, rfl⟩

lemma cutPrefixGo_slash_head {s : Str} (h : ¬ (['/', '/'] : Str) <+: s) :
    ((cutPrefixGo s ['/']).1).head? ≠ some '/' := by
  cases s with
  | nil => simp [cutPrefixGo, List.isPrefixOf]
  | cons c t =>
    by_cases hc : c = '/'
    · subst hc
      have ht : t.head? ≠ some '/' := by
        intro hh
        obtain ⟨u, rfl⟩ := head?_some_slash hh
        exact h ⟨u, rfl⟩
      simpa [cutPrefixGo, List.isPrefixOf] using ht
    · simpa [cutPrefixGo, List.isPrefixOf, beq_iff_eq, Ne.symm hc] using hc

/-- The six verb spellings claim C3 allows (hyphen or single-space
separator only). -/
def claimedVerbs : List Str :=
  ["git-upload-pack".toList, "git upload-pack".toList, "git-receive-pack".toList,
    "git receive-pack".toList, "git-upload-archive".toList, "git upload-archive".toList]

/-- The command grammar exactly as claim C3 states it. -/
def claimedGrammar (s : Str) : Prop :=
  ∃ v g, v ∈ claimedVerbs ∧ s = v ++ (' ' :: '\'' :: (g ++ ['\'']))

/-- The grammar the code's regex actually accepts: the separator class is
`[-|\s]` — hyphen, pipe, or any RE2 whitespace character — and the quoted
path may be any newline-free text. -/
def codeGrammar (s : Str) : Prop :=
  ∃ c body g, sepClass c = true ∧
    body ∈ [uploadPackBody, uploadArchiveBody, receivePackBody] ∧
    '\n' ∉ g ∧
    s = 'g' :: 'i' :: 't' :: c :: (body ++ (' ' :: '\'' :: (g ++ ['\''])))

lemma not_claimedGrammar_of_no_verb {s : Str}
    (h : ∀ v ∈ claimedVerbs, ¬ v <+: s) : ¬ claimedGrammar s := by
  rintro ⟨v, g, hv, rfl⟩
  exact h v hv ⟨_, rfl⟩

lemma matchVerb_eq_some {s v rest : Str} (h : matchVerb s = some (v, rest)) :
    ∃ c body, sepClass c = true ∧
      body ∈ [uploadPackBody, uploadArchiveBody, receivePackBody] ∧
      v = 'g' :: 'i' :: 't' :: c :: body ∧
      s = 'g' :: 'i' :: 't' :: c :: (body ++ rest) := by
  rw [matchVerb.eq_def] at h
  split at h
  · rename_i c r
    split at h
    · rename_i hsep
      split at h
      · rename_i hpre
        obtain ⟨t, ht⟩ := List.isPrefixOf_iff_prefix.mp hpre
        simp only [Option.some.injEq, Prod.mk.injEq] at h
        obtain ⟨hv, hrest⟩ := h
        refine ⟨c, uploadPackBody, hsep, by simp, hv.symm, ?_⟩
        rw [← ht, List.drop_left] at hrest
        rw [← ht, hrest]
      · split at h
        · rename_i hpre
          obtain ⟨t, ht⟩ := List.isPrefixOf_iff_prefix.mp hpre
          simp only [Option.some.injEq, Prod.mk.injEq] at h
          obtain ⟨hv, hrest⟩ := h
          refine ⟨c, uploadArchiveBody, hsep, by simp, hv.symm, ?_⟩
          rw [← ht, List.drop_left] at hrest
          rw [← ht, hrest]
        · split at h
          · rename_i hpre
            obtain ⟨t, ht⟩ := List.isPrefixOf_iff_prefix.mp hpre
            simp only [Option.some.injEq, Prod.mk.injEq] at h
            obtain ⟨hv, hrest⟩ := h
            refine ⟨c, receivePackBody, hsep, by simp, hv.symm, ?_⟩
            rw [← ht, List.drop_left] at hrest
            rw [← ht, hrest]
          · simp at h
    · simp at h
  · simp at h

lemma matchVerb_append {c : Char} {body : Str} (hsep : sepClass c = true)
    (hbody : body ∈ [uploadPackBody, uploadArchiveBody, receivePackBody]) (X : Str) :
    matchVerb ('g' :: 'i' :: 't' :: c :: (body ++ X)) =
      some ('g' :: 'i' :: 't' :: c :: body, X) := by
  simp only [List.mem_cons, List.mem_singleton, List.not_mem_nil, or_false] at hbody
  rcases hbody with rfl | rfl | rfl
  · rw [matchVerb, if_pos hsep,
      if_pos ( List.isPrefixOf_iff_prefix.mpr (List.prefix_append _ _)), List.drop_left]
  · rw [matchVerb, if_pos hsep, if_neg ?hne,
      if_pos ( List.isPrefixOf_iff_prefix.mpr (List.prefix_append _ _)), List.drop_left]
    case hne =>
      intro hcontra
      have : uploadPackBody.isPrefixOf (uploadArchiveBody ++ X) = false := rfl
      rw [this] at hcontra
      exact Bool.false_ne_true hcontra
  · rw [matchVerb, if_pos hsep, if_neg ?hne1, if_neg ?hne2,
      if_pos ( List.isPrefixOf_iff_prefix.mpr (List.prefix_append _ _)), List.drop_left]
    case hne1 =>
      intro hcontra
      have : uploadPackBody.isPrefixOf (receivePackBody ++ X) = false := rfl
      rw [this] at hcontra
      exact Bool.false_ne_true hcontra
    case hne2 =>
      intro hcontra
      have : uploadArchiveBody.isPrefixOf (receivePackBody ++ X) = false := rfl
      rw [this] at hcontra
      exact Bool.false_ne_true hcontra

lemma matchGitCommandRegex_of_grammar {c : Char} {body g : Str}
    (hsep : sepClass c = true)
    (hbody : body ∈ [uploadPackBody, uploadArchiveBody, receivePackBody])
    (hg : '\n' ∉ g) :
    matchGitCommandRegex
        ('g' :: 'i' :: 't' :: c :: (body ++ (' ' :: '\'' :: (g ++ ['\''])))) =
      some ('g' :: 'i' :: 't' :: c :: body, g) := by
  unfold matchGitCommandRegex
  rw [matchVerb_append hsep hbody]
  simp [List.getLast?_concat, List.dropLast_concat, hg]

lemma matchGitCommandRegex_eq_some {s v g : Str}
    (h : matchGitCommandRegex s = some (v, g)) :
    ∃ c body, sepClass c = true ∧
      body ∈ [uploadPackBody, uploadArchiveBody, receivePackBody] ∧
      v = 'g' :: 'i' :: 't' :: c :: body ∧ '\n' ∉ g ∧
      s = 'g' :: 'i' :: 't' :: c :: (body ++ (' ' :: '\'' :: (g ++ ['\'']))) := by
  unfold matchGitCommandRegex at h
  split at h
  · simp at h
  · rename_i verb rest hm
    split at h
    · rename_i t
      split at h
      · rename_i hcond
        simp only [Option.some.injEq, Prod.mk.injEq] at h
        obtain ⟨hv, hgeq⟩ := h
        obtain ⟨hlast, hnl⟩ := hcond
        have ht : t.dropLast ++ ['\''] = t := by
          rcases List.eq_nil_or_concat t with rfl | ⟨ys, y, rfl⟩
          · simp at hlast
          · simp only [List.concat_eq_append] at hlast ⊢
            rw [List.getLast?_concat] at hlast
            injection hlast with hsome
            rw [List.dropLast_concat, hsome]
        obtain ⟨c, body, hsep, hbody, hverb, hs⟩ := matchVerb_eq_some hm
        refine ⟨c, body, hsep, hbody, hverb ▸ hv ▸ rfl, hgeq ▸ hnl, ?_⟩
        rw [hs, ← hgeq, ht]
      · simp at h
    · simp at h

lemma matchGitCommandRegex_none_iff (s : Str) :
    matchGitCommandRegex s = none ↔ ¬ codeGrammar s := by
  constructor
  · intro h hcg
    obtain ⟨c, body, g, hsep, hbody, hg, rfl⟩ := hcg
    rw [matchGitCommandRegex_of_grammar hsep hbody hg] at h
    exact Option.some_ne_none _ h
  · intro h
    rcases hm : matchGitCommandRegex s with _ | ⟨v, g⟩
    · rfl
    · exfalso
      obtain ⟨c, body, hsep, hbody, _, hg, hs⟩ := matchGitCommandRegex_eq_some hm
      exact h ⟨c, body, g, hsep, hbody, hg, hs⟩

/-- Claim C3 (counterexample): `git|upload-pack 'hello'` lies outside the
claimed six-verb grammar, yet `ParseGitCommand` accepts it, because the
regex class `[-|\s]` also admits `|` (and any RE2 whitespace) as the verb
separator. -/
theorem ParseGitCommand_accepts_outside_claimed_grammar :
    (¬ claimedGrammar "git|upload-pack 'hello'".toList) ∧
    Part000.ParseGitCommand "git|upload-pack 'hello'".toList =
      some ⟨"git|upload-pack".toList, "hello".toList,
        "git|upload-pack 'hello'".toList⟩ :=
  ⟨not_claimedGrammar_of_no_verb (by decide), by decide⟩

/-- Claim C3 (amended): parsing fails exactly on the strings outside the
grammar the regex `^(git[-|\s]upload-pack|git[-|\s]upload-archive|git[-|\s]receive-pack) '(.*)'$`
accepts — verb separator `-`, `|`, or RE2 whitespace, and a newline-free
single-quoted path ending the string; both embedded parser versions agree. -/
theorem ParseGitCommand_none_iff_outside_grammar (s : Str) :
    (Part000.ParseGitCommand s = none ↔ ¬ codeGrammar s) ∧
    (GitCommandGo.ParseGitCommand s = none ↔ ¬ codeGrammar s) := by
  have h1 : Part000.ParseGitCommand s = none ↔ matchGitCommandRegex s = none := by
    unfold Part000.ParseGitCommand
    rcases matchGitCommandRegex s with _ | ⟨v, g⟩ <;> simp
  have h2 : GitCommandGo.ParseGitCommand s = none ↔ matchGitCommandRegex s = none := by
    unfold GitCommandGo.ParseGitCommand
    rcases matchGitCommandRegex s with _ | ⟨v, g⟩ <;> simp
  rw [h1, h2, matchGitCommandRegex_none_iff]
  exact ⟨Iff.rfl, Iff.rfl⟩

/-- Claim C8: the five literal parsing cases of the spec hold, for both
embedded versions of the parser (they agree on these inputs). -/
theorem ParseGitCommand_literal_cases :
    (Part000.ParseGitCommand "git-upload-pack 'hello.git'".toList =
      some ⟨"git-upload-pack".toList, "hello".toList,
        "git-upload-pack 'hello.git'".toList⟩) ∧
    (Part000.ParseGitCommand "git upload-pack 'hello.git'".toList =
      some ⟨"git upload-pack".toList, "hello".toList,
        "git upload-pack 'hello.git'".toList⟩) ∧
    (Part000.ParseGitCommand "git-upload-pack '/hello/world.git'".toList =
      some ⟨"git-upload-pack".toList, "hello/world".toList,
        "git-upload-pack '/hello/world.git'".toList⟩) ∧
    (Part000.ParseGitCommand "git receive-pack 'hello.git'".toList =
      some ⟨"git receive-pack".toList, "hello".toList,
        "git receive-pack 'hello.git'".toList⟩) ∧
    (Part000.ParseGitCommand "git upload-archive 'hello'".toList =
      some ⟨"git upload-archive".toList, "hello".toList,
        "git upload-archive 'hello'".toList⟩) ∧
    (GitCommandGo.ParseGitCommand "git-upload-pack 'hello.git'".toList =
      some ⟨"git-upload-pack".toList, "hello".toList,
        "git-upload-pack 'hello.git'".toList⟩) ∧
    (GitCommandGo.ParseGitCommand "git upload-pack 'hello.git'".toList =
      some ⟨"git upload-pack".toList, "hello".toList,
        "git upload-pack 'hello.git'".toList⟩) ∧
    (GitCommandGo.ParseGitCommand "git-upload-pack '/hello/world.git'".toList =
      some ⟨"git-upload-pack".toList, "hello/world".toList,
        "git-upload-pack '/hello/world.git'".toList⟩) ∧
    (GitCommandGo.ParseGitCommand "git receive-pack 'hello.git'".toList =
      some ⟨"git receive-pack".toList, "hello".toList,
        "git receive-pack 'hello.git'".toList⟩) ∧
    (GitCommandGo.ParseGitCommand "git upload-archive 'hello'".toList =
      some ⟨"git upload-archive".toList, "hello".toList,
        "git upload-archive 'hello'".toList⟩) := by
  decide

/-- Claim C2: the `parseRepoName` of `git_command.go` strips the first path
separator anywhere in the path, not only a leading one.  On the repository's
own test input `git-upload-pack 'hello/world.git'` (from
`TestParseGitCommand`, which expects `hello/world`) it produces `helloworld`;
the `part_000` version produces the expected `hello/world`. -/
theorem gitCommandGo_parseRepoName_contradicts_test :
    (GitCommandGo.ParseGitCommand "git-upload-pack 'hello/world.git'".toList =
      some ⟨"git-upload-pack".toList, "helloworld".toList,
        "git-upload-pack 'hello/world.git'".toList⟩) ∧
    (Part000.ParseGitCommand "git-upload-pack 'hello/world.git'".toList =
      some ⟨"git-upload-pack".toList, "hello/world".toList,
        "git-upload-pack 'hello/world.git'".toList⟩) ∧
    "helloworld".toList ≠ "hello/world".toList := by
  decide

/-- Claim C6 (counterexample): repo-path normalization is not idempotent; at
`//a` a second application strips a second separator, for both embedded
versions of `parseRepoName`. -/
theorem parseRepoName_not_idempotent_at_doubleslash :
    (Part000.parseRepoName (Part000.parseRepoName "//a".toList) ≠
      Part000.parseRepoName "//a".toList) ∧
    (GitCommandGo.parseRepoName (GitCommandGo.parseRepoName "//a".toList) ≠
      GitCommandGo.parseRepoName "//a".toList) := by
  decide

/-- Claim C6 (amended): for the `part_000` version of `parseRepoName` (the
one consistent with the repository's tests), normalization is idempotent on
every path that does not begin with two separators and does not end with a
doubled `.git.git` suffix. -/
theorem parseRepoName_idem_of_normal {s : Str}
    (h1 : ¬ (['/', '/'] : Str) <+: s)
    (h2 : ¬ ".git.git".toList <:+ s) :
    Part000.parseRepoName (Part000.parseRepoName s) = Part000.parseRepoName s := by
  have hs1 : (cutPrefixGo s ['/']).1 <:+ s := cutPrefixGo_slash_suffix s
  have hhead : ((cutPrefixGo s ['/']).1).head? ≠ some '/' := cutPrefixGo_slash_head h1
  have hrpre : (cutSuffix (cutPrefixGo s ['/']).1 ".git".toList).1 <+:
      (cutPrefixGo s ['/']).1 := cutSuffix_fst_pre _ _
  have hrhead : (Part000.parseRepoName s).head? ≠ some '/' := by
    unfold Part000.parseRepoName
    rcases head?_eq_or_of_pre hrpre with h | h
    · rw [h]
      simp
    · rw [h]
      exact hhead
  show Part000.parseRepoName (Part000.parseRepoName s) = Part000.parseRepoName s
  rw [Part000.parseRepoName]
  have h3 : (cutPrefixGo (Part000.parseRepoName s) ['/']).1 = Part000.parseRepoName s := by
    unfold cutPrefixGo
    rw [if_neg]
    intro hpf
    exact hrhead (singleton_isPrefixOf_iff.mp hpf)
  rw [h3]
  apply cutSuffix_eq_self
  intro hsuf
  by_cases hg : ".git".toList <:+ (cutPrefixGo s ['/']).1
  · obtain ⟨a, ha⟩ := hg
    have hr : Part000.parseRepoName s = a := by
      unfold Part000.parseRepoName
      rw [← ha, cutSuffix_append]
    rw [hr] at hsuf
    obtain ⟨b, hb⟩ := hsuf
    apply h2
    have hgg : (".git.git".toList : Str) = ".git".toList ++ ".git".toList := by decide
    have : ".git.git".toList <:+ (cutPrefixGo s ['/']).1 := by
      refine ⟨b, ?_⟩
      rw [hgg, ← ha, ← hb]
      simp
    exact this.trans hs1
  · have hr : Part000.parseRepoName s = (cutPrefixGo s ['/']).1 := by
      unfold Part000.parseRepoName
      exact cutSuffix_eq_self hg
    rw [hr] at hsuf
    exact hg hsuf

/-- Witness for the amended C6 theorem at the concrete path `/hello/world.git`. -/
theorem parseRepoName_idem_of_normal_witness :
    (¬ (['/', '/'] : Str) <+: "/hello/world.git".toList) ∧
    (¬ ".git.git".toList <:+ "/hello/world.git".toList) ∧
    Part000.parseRepoName (Part000.parseRepoName "/hello/world.git".toList) =
      Part000.parseRepoName "/hello/world.git".toList :=
  ⟨by decide, by decide, parseRepoName_idem_of_normal (by decide) (by decide)⟩

/-! Embedding of the exec-request handler of `ssh.go`.  External effects —
channel writes, the request reply, repository initialization, subprocess
start, and channel requests — are recorded as an event trace; the results of
the collaborators (authorization hook, repo-existence check, pipe creation,
subprocess start and wait) are supplied by an `ExecEnv` oracle. -/

inductive Event where
  | chWrite (data : Str)
  | reply (ok : Bool)
  | repoInit (repo : Str)
  | cmdStart (command repo : Str)
  | sendRequest (name : String) (wantReply : Bool) (payload : List Nat)
deriving Repr, DecidableEq

structure ExecEnv where
  authorise : Option (GitCommand → Option String)
  repoExists : Bool
  autoCreate : Bool
  initRepoErr : Option String
  stdoutPipeErr : Option String
  stderrPipeErr : Option String
  stdinPipeErr : Option String
  startErr : Option String
  waitErr : Option String

def execCutset : Str := ['\'', '(', ')']

/-- The payload preprocessing at the top of `handleExecRequest`:
`strings.TrimLeft(payload, "'()")`, then, when the result begins with a NUL
byte, `strings.Replace(cmdName, "\x00", "", -1)[1:]` — every NUL dropped and
then one more leading character (Go would panic on an empty slice; modelled
as the empty string, a case no claim touches). -/
def preprocessPayload (payload : Str) : Str :=
  let cmdName := trimLeftIn execCutset payload
  if (['\x00'] : Str).isPrefixOf cmdName then (removeAllChar '\x00' cmdName).drop 1
  else cmdName

/-- The `s.AuthoriseOperationFunc != nil` guard and call in
`handleExecRequest`: `none` when the hook is absent or allows. -/
def authResult (env : ExecEnv) (gitcmd : GitCommand) : Option String :=
  match env.authorise with
  | some f => f gitcmd
  | none => none

/-- Whether the auto-create branch runs:
`!repoExists(...) && s.config.AutoCreate == true`. -/
def autoCreateRuns (env : ExecEnv) : Bool := !env.repoExists && env.autoCreate

/-- The error produced by the auto-create branch, `none` when the branch is
skipped or `initRepo` succeeds. -/
def autoCreateErr (env : ExecEnv) : Option String :=
  if autoCreateRuns env then env.initRepoErr else none

def invalidCommandMsg : Str := "Invalid command.\r\n".toList

/-- The body of `handleExecRequest` of `ssh.go`, returning the function's
error result together with the trace of its external effects, in program
order. -/
def handleExecRequest (env : ExecEnv) (payload : Str) : Option String × List Event :=
  match Part000.ParseGitCommand (preprocessPayload payload) with
  | none => (some "invalid git command", [Event.chWrite invalidCommandMsg])
  | some gitcmd =>
    match authResult env gitcmd with
    | some e => (some e, [])
    | none =>
      let initEvents : List Event :=
        if autoCreateRuns env then [Event.repoInit gitcmd.Repo] else []
      match autoCreateErr env with
      | some e => (some e, initEvents)
      | none =>
        match env.stdoutPipeErr with
        | some e => (some ("ssh: cant open stdout pipe: " ++ e), initEvents)
        | none =>
          match env.stderrPipeErr with
          | some e => (some ("ssh: cant open stderr pipe: " ++ e), initEvents)
          | none =>
            match env.stdinPipeErr with
            | some e => (some ("ssh: cant open stdin pipe: " ++ e), initEvents)
            | none =>
              match env.startErr with
              | some e => (some ("ssh: start error: " ++ e), initEvents)
              | none =>
                let started := initEvents ++
                  [Event.cmdStart gitcmd.Command gitcmd.Repo, Event.reply true]
                match env.waitErr with
                | some e => (some ("ssh: command failed: " ++ e), started)
                | none =>
                  (none, started ++ [Event.sendRequest "exit-status" true [0, 0, 0, 0]])

def isReplyEvent : Event → Bool
  | Event.reply _ => true
  | _ => false

def isStartEvent : Event → Bool
  | Event.cmdStart _ _ => true
  | _ => false

def isSendRequestEvent : Event → Bool
  | Event.sendRequest _ _ _ => true
  | _ => false

/-- The condition under which `cmd.Start()` is reached and succeeds. -/
def startSucceeds (env : ExecEnv) (payload : Str) : Bool :=
  match Part000.ParseGitCommand (preprocessPayload payload) with
  | none => false
  | some gitcmd =>
    (authResult env gitcmd).isNone && (autoCreateErr env).isNone &&
    env.stdoutPipeErr.isNone && env.stderrPipeErr.isNone &&
    env.stdinPipeErr.isNone && env.startErr.isNone

/-- Claim C4: when the payload parses and the operation-authorization
collaborator denies the command, `handleExecRequest` returns the denial
error with an empty event trace — no subprocess start, no repository
initialization, no reply, no channel write, no status request. -/
theorem handleExecRequest_auth_denied {env : ExecEnv} {payload : Str}
    {f : GitCommand → Option String} {gitcmd : GitCommand} {e : String}
    (hparse : Part000.ParseGitCommand (preprocessPayload payload) = some gitcmd)
    (hauth : env.authorise = some f) (hdeny : f gitcmd = some e) :
    handleExecRequest env payload = (some e, []) := by
  simp [handleExecRequest, hparse, authResult, hauth, hdeny]

/-- Witness for C4: a concrete denying collaborator on a parsed command. -/
theorem handleExecRequest_auth_denied_witness :
    handleExecRequest
      ⟨some (fun _ => some "denied"), true, false, none, none, none, none, none, none⟩
      "git-upload-pack 'hello.git'".toList = (some "denied", []) :=
  @handleExecRequest_auth_denied
    ⟨some (fun _ => some "denied"), true, false, none, none, none, none, none, none⟩
    "git-upload-pack 'hello.git'".toList (fun _ => some "denied")
    ⟨"git-upload-pack".toList, "hello".toList, "git-upload-pack 'hello.git'".toList⟩
    "denied" (by decide) rfl rfl

/-- Claim C5: restricted to subprocess-start and reply events, the trace of
`handleExecRequest` is `[cmdStart, reply true]` when the start succeeds and
empty otherwise — the request is acknowledged exactly when `cmd.Start()`
succeeds and only after it; and whenever the start is not reached or fails
(parse failure, denial, init failure, any pipe failure, spawn failure) the
function returns an error and never replies. -/
theorem handleExecRequest_reply_iff_start (env : ExecEnv) (payload : Str) :
    (startSucceeds env payload = true →
      ∃ c r, (handleExecRequest env payload).2.filter
          (fun ev => isStartEvent ev || isReplyEvent ev) =
        [Event.cmdStart c r, Event.reply true]) ∧
    (startSucceeds env payload = false →
      (handleExecRequest env payload).2.filter
          (fun ev => isStartEvent ev || isReplyEvent ev) = [] ∧
      (handleExecRequest env payload).1.isSome = true) := by
  rcases hp : Part000.ParseGitCommand (preprocessPayload payload) with _ | gitcmd
  · simp [handleExecRequest, startSucceeds, hp, isStartEvent, isReplyEvent]
  · rcases ha : authResult env gitcmd with _ | e
    · rcases hac : autoCreateErr env with _ | e
      · rcases h1 : env.stdoutPipeErr with _ | e
        · rcases h2 : env.stderrPipeErr with _ | e
          · rcases h3 : env.stdinPipeErr with _ | e
            · rcases h4 : env.startErr with _ | e
              · refine ⟨fun _ => ⟨gitcmd.Command, gitcmd.Repo, ?_⟩,
                  by simp [startSucceeds, hp, ha, hac, h1, h2, h3, h4]⟩
                rcases hw : env.waitErr with _ | e <;>
                  by_cases hr : autoCreateRuns env = true <;>
                    simp [handleExecRequest, hp, ha, hac, h1, h2, h3, h4, hw, hr,
                      isStartEvent, isReplyEvent, List.filter_append]
              · by_cases hr : autoCreateRuns env = true <;>
                  simp [handleExecRequest, startSucceeds, hp, ha, hac, h1, h2, h3, h4, hr,
                    isStartEvent, isReplyEvent]
            · by_cases hr : autoCreateRuns env = true <;>
                simp [handleExecRequest, startSucceeds, hp, ha, hac, h1, h2, h3, hr,
                  isStartEvent, isReplyEvent]
          · by_cases hr : autoCreateRuns env = true <;>
              simp [handleExecRequest, startSucceeds, hp, ha, hac, h1, h2, hr,
                isStartEvent, isReplyEvent]
        · by_cases hr : autoCreateRuns env = true <;>
            simp [handleExecRequest, startSucceeds, hp, ha, hac, h1, hr,
              isStartEvent, isReplyEvent]
      · by_cases hr : autoCreateRuns env = true <;>
          simp [handleExecRequest, startSucceeds, hp, ha, hac, hr,
            isStartEvent, isReplyEvent]
    · simp [handleExecRequest, startSucceeds, hp, ha]

/-- Witness for C5 at a concrete successful run. -/
theorem handleExecRequest_reply_iff_start_witness :
    startSucceeds ⟨none, true, false, none, none, none, none, none, none⟩
        "git-upload-pack 'hello.git'".toList = true ∧
    ∃ c r, (handleExecRequest ⟨none, true, false, none, none, none, none, none, none⟩
        "git-upload-pack 'hello.git'".toList).2.filter
          (fun ev => isStartEvent ev || isReplyEvent ev) =
        [Event.cmdStart c r, Event.reply true] :=
  ⟨by decide,
    (handleExecRequest_reply_iff_start
      ⟨none, true, false, none, none, none, none, none, none⟩
      "git-upload-pack 'hello.git'".toList).1 (by decide)⟩

/-- Claim C1 (counterexample): a run whose subprocess started but whose
`cmd.Wait()` failed sends no `exit-status` request at all — the function
returns the wrapped wait error before `ch.SendRequest` is reached — so the
claimed "exactly one exit-status regardless of exit status" is false. -/
theorem handleExecRequest_no_exit_status_on_wait_error :
    ((handleExecRequest
        ⟨none, true, false, none, none, none, none, none, some "exit status 1"⟩
        "git-upload-pack 'hello.git'".toList).2 =
      [Event.cmdStart "git-upload-pack".toList "hello".toList, Event.reply true]) ∧
    ¬ ((handleExecRequest
        ⟨none, true, false, none, none, none, none, none, some "exit status 1"⟩
        "git-upload-pack 'hello.git'".toList).2.count
          (Event.sendRequest "exit-status" true [0, 0, 0, 0]) = 1) ∧
    (handleExecRequest
        ⟨none, true, false, none, none, none, none, none, some "exit status 1"⟩
        "git-upload-pack 'hello.git'".toList).1 =
      some ("ssh: command failed: " ++ "exit status 1") := by
  refine ⟨by decide, by decide, by decide⟩

/-- Claim C1 (amended): after a successful subprocess start, the fixed
zero-payload `exit-status` request is sent exactly once when `cmd.Wait()`
returns no error; when `cmd.Wait()` fails, the wait error is returned (and
logged by the caller) and no `exit-status` request is sent. -/
theorem handleExecRequest_exit_status (env : ExecEnv) (payload : Str)
    (hstart : startSucceeds env payload = true) :
    (env.waitErr = none →
      (handleExecRequest env payload).2.filter isSendRequestEvent =
        [Event.sendRequest "exit-status" true [0, 0, 0, 0]]) ∧
    (∀ e, env.waitErr = some e →
      (handleExecRequest env payload).2.filter isSendRequestEvent = [] ∧
      (handleExecRequest env payload).1 = some ("ssh: command failed: " ++ e)) := by
  unfold startSucceeds at hstart
  rcases hp : Part000.ParseGitCommand (preprocessPayload payload) with _ | gitcmd
  · rw [hp] at hstart
    simp at hstart
  · rw [hp] at hstart
    have hstart' : ((authResult env gitcmd).isNone && (autoCreateErr env).isNone &&
        env.stdoutPipeErr.isNone && env.stderrPipeErr.isNone &&
        env.stdinPipeErr.isNone && env.startErr.isNone) = true := hstart
    simp only [Bool.and_eq_true, Option.isNone_iff_eq_none] at hstart'
    obtain ⟨⟨⟨⟨⟨ha, hac⟩, h1⟩, h2⟩, h3⟩, h4⟩ := hstart'
    constructor
    · intro hw
      by_cases hr : autoCreateRuns env = true <;>
        simp [handleExecRequest, hp, ha, hac, h1, h2, h3, h4, hw, hr,
          isSendRequestEvent, List.filter_append]
    · intro e hw
      by_cases hr : autoCreateRuns env = true <;>
        simp [handleExecRequest, hp, ha, hac, h1, h2, h3, h4, hw, hr,
          isSendRequestEvent, List.filter_append]

/-- Witness for the amended C1 theorem at a concrete clean run. -/
theorem handleExecRequest_exit_status_witness :
    startSucceeds ⟨none, true, false, none, none, none, none, none, none⟩
        "git-upload-pack 'hello.git'".toList = true ∧
    (handleExecRequest ⟨none, true, false, none, none, none, none, none, none⟩
        "git-upload-pack 'hello.git'".toList).2.filter isSendRequestEvent =
      [Event.sendRequest "exit-status" true [0, 0, 0, 0]] :=
  ⟨by decide,
    (handleExecRequest_exit_status
      ⟨none, true, false, none, none, none, none, none, none⟩
      "git-upload-pack 'hello.git'".toList (by decide)).1 rfl⟩

/-! Embedding of the `PublicKeyCallback` closure installed by `setup` in
`ssh.go` (authenticated branch).  The pre-login check and the public-key
lookup are collaborator oracles; every invocation of the lookup is recorded
in the trace. -/

/-- The `PublicKey` struct of `ssh.go`. -/
structure PublicKey where
  Id : Str
  Name : Str
  Fingerprint : Str
  Content : Str
deriving Repr, DecidableEq

/-- The `ssh.Permissions.Extensions` map built on success, with its three
fixed keys `key-id`, `key-name`, `ssh-user`. -/
structure Permissions where
  keyId : Str
  keyName : Str
  sshUser : Str
deriving Repr, DecidableEq

structure CallbackEnv where
  preLogin : Option String
  lookup : Str → Option PublicKey × Option String

inductive CallbackEvent where
  | lookupInvoked (key : Str)
deriving Repr, DecidableEq

/-- Model of Go `unicode.IsSpace` restricted to Latin-1 (the characters
`strings.TrimSpace` strips): space, tab, newline, vertical tab, form feed,
carriage return, NEL, NBSP. -/
def goIsSpace (c : Char) : Bool :=
  c = ' ' || c = '\t' || c = '\n' || c = '\x0b' || c = '\x0c' || c = '\r' ||
  c = '\x85' || c = '\xA0'

/-- Model of Go `strings.TrimSpace`. -/
def trimSpace (s : Str) : Str :=
  ((s.dropWhile goIsSpace).reverse.dropWhile goIsSpace).reverse

/-- The `config.PublicKeyCallback` closure of `setup`: pre-login check
first; on success the lookup is called on the trimmed marshalled key; a
lookup error or a `nil` identity fails the callback; otherwise the identity
and the claimed username are bound into the permissions. -/
def publicKeyCallback (env : CallbackEnv) (connUser marshalledKey : Str) :
    (Option Permissions × Option String) × List CallbackEvent :=
  match env.preLogin with
  | some e => ((none, some e), [])
  | none =>
    let arg := trimSpace marshalledKey
    match env.lookup arg with
    | (pkey, err) =>
      match err with
      | some e => ((none, some e), [CallbackEvent.lookupInvoked arg])
      | none =>
        match pkey with
        | none => ((none, some "auth handler did not return a key"),
            [CallbackEvent.lookupInvoked arg])
        | some pk => ((some ⟨pk.Id, pk.Name, connUser⟩, none),
            [CallbackEvent.lookupInvoked arg])

/-- Claim C7: when the pre-login check fails, the callback returns its error
without ever invoking the public-key lookup (empty trace), so the handshake
is aborted. -/
theorem publicKeyCallback_preLogin_first {env : CallbackEnv} {u k : Str} {e : String}
    (h : env.preLogin = some e) :
    publicKeyCallback env u k = ((none, some e), []) := by
  simp [publicKeyCallback, h]

/-- Witness for C7 with a concrete rejecting pre-login check. -/
theorem publicKeyCallback_preLogin_first_witness :
    publicKeyCallback ⟨some "unrecognised/ invalid user", fun _ => (none, none)⟩
      "bob".toList "ssh-rsa AAAA".toList =
      ((none, some "unrecognised/ invalid user"), []) :=
  publicKeyCallback_preLogin_first rfl

/-- Claim C9: a lookup returning a `nil` identity together with a `nil`
error is itself treated as a failure: the callback produces no permissions
and fails with the `auth handler did not return a key` error, so the
connection is never established. -/
theorem publicKeyCallback_nil_identity {env : CallbackEnv} {u k : Str}
    (hpre : env.preLogin = none)
    (hlook : env.lookup (trimSpace k) = (none, none)) :
    publicKeyCallback env u k =
      ((none, some "auth handler did not return a key"),
        [CallbackEvent.lookupInvoked (trimSpace k)]) := by
  simp [publicKeyCallback, hpre, hlook]

/-- Witness for C9 with a concrete empty-handed lookup. -/
theorem publicKeyCallback_nil_identity_witness :
    publicKeyCallback ⟨none, fun _ => (none, none)⟩ "bob".toList "ssh-rsa AAAA".toList =
      ((none, some "auth handler did not return a key"),
        [CallbackEvent.lookupInvoked (trimSpace "ssh-rsa AAAA".toList)]) :=
  publicKeyCallback_nil_identity rfl rfl

/-! Embedding of `config.go`.  Go's `text/template` is modelled for the
fragment the banners use: literal text interleaved with dot-field actions.
An unterminated action is a parse error (as in the repository's
`Dodgy banner` test); an unknown or non-dot action fails, leaving the
output produced so far, mirroring `CompileBanner` returning `out.Bytes()`
alongside the error. -/

structure HookScripts where
  PreReceive : Str
  Update : Str
  PostReceive : Str
deriving Repr, DecidableEq

structure Config where
  KeyDir : Str
  Dir : Str
  GitPath : Str
  GitUser : Str
  AutoCreate : Bool
  AutoHooks : Bool
  Hooks : Option HookScripts
  Auth : Bool
  BannerTemplate : Str
deriving Repr, DecidableEq

def DefaultSSHBanner : Str :=
  "Welcome to gitkit \x7b\x7b .Name \x7d\x7d\nYour public key id is \x7b\x7b .Id \x7d\x7d\n".toList

inductive TemplateNode where
  | lit (s : Str)
  | field (name : Str)
deriving Repr, DecidableEq

/-- Scan up to the first action opener (two opening braces): returns the
literal text before it and, when found, the remainder after it. -/
def findOpen : Str → Str × Option Str
  | [] => ([], none)
  | '\x7b' :: '\x7b' :: rest => ([], some rest)
  | c :: rest =>
    let p := findOpen rest
    (c :: p.1, p.2)

/-- Scan up to the action closer (two closing braces): returns the action
content and the remainder, or `none` when the action is unterminated. -/
def findClose : Str → Option (Str × Str)
  | [] => none
  | '\x7d' :: '\x7d' :: rest => some ([], rest)
  | c :: rest =>
    match findClose rest with
    | none => none
    | some (a, b) => some (c :: a, b)

/-- An action parses when, after trimming spaces, it is a dot followed by a
field name; anything else is rejected. -/
def parseAction (content : Str) : Option TemplateNode :=
  match trimSpace content with
  | '.' :: name => some (TemplateNode.field name)
  | _ => none

def parseTemplateAux : Nat → Str → Option (List TemplateNode)
  | 0, _ => none
  | fuel + 1, s =>
    match findOpen s with
    | (pre, none) => some [TemplateNode.lit pre]
    | (pre, some rest) =>
      match findClose rest with
      | none => none
      | some (content, rest') =>
        match parseAction content with
        | none => none
        | some node =>
          match parseTemplateAux fuel rest' with
          | none => none
          | some nodes => some (TemplateNode.lit pre :: node :: nodes)

def parseTemplate (s : Str) : Option (List TemplateNode) :=
  parseTemplateAux (s.length + 1) s

/-- Field resolution on the `PublicKey` struct the banner is executed
against. -/
def lookupField (pk : PublicKey) (n : Str) : Option Str :=
  if n = "Id".toList then some pk.Id
  else if n = "Name".toList then some pk.Name
  else if n = "Fingerprint".toList then some pk.Fingerprint
  else if n = "Content".toList then some pk.Content
  else none

/-- Template execution: emits nodes left to right, stopping at the first
failing field with the output produced so far. -/
def executeTemplate (pk : PublicKey) : List TemplateNode → Str × Option String
  | [] => ([], none)
  | TemplateNode.lit l :: rest =>
    let p := executeTemplate pk rest
    (l ++ p.1, p.2)
  | TemplateNode.field n :: rest =>
    match lookupField pk n with
    | none => ([], some "template: cannot evaluate field")
    | some v =>
      let p := executeTemplate pk rest
      (v ++ p.1, p.2)

/-- The `CompileBanner` method of `config.go`: an empty configured template
falls back to `DefaultSSHBanner`; a parse failure yields no banner bytes and
an error; execution yields the rendered bytes and any execution error. -/
def Config.CompileBanner (c : Config) (pk : PublicKey) : Str × Option String :=
  let tmpl := if c.BannerTemplate = [] then DefaultSSHBanner else c.BannerTemplate
  match parseTemplate tmpl with
  | none => ([], some "template: parse error")
  | some nodes => executeTemplate pk nodes

lemma parseTemplate_default :
    parseTemplate DefaultSSHBanner =
      some [TemplateNode.lit "Welcome to gitkit ".toList,
        TemplateNode.field "Name".toList,
        TemplateNode.lit "\nYour public key id is ".toList,
        TemplateNode.field "Id".toList,
        TemplateNode.lit "\n".toList] := by
  decide

/-- Claim C10: on a config with an empty banner template, `CompileBanner`
returns exactly what it returns when the default banner template is set
explicitly, with no error: the default template always renders, to the
welcome text interpolating the key's `Name` and `Id`. -/
theorem CompileBanner_empty_is_default (c : Config) (pk : PublicKey)
    (h : c.BannerTemplate = []) :
    Config.CompileBanner c pk =
      Config.CompileBanner ⟨c.KeyDir, c.Dir, c.GitPath, c.GitUser, c.AutoCreate,
        c.AutoHooks, c.Hooks, c.Auth, DefaultSSHBanner⟩ pk ∧
    Config.CompileBanner c pk =
      ("Welcome to gitkit ".toList ++ pk.Name ++
        "\nYour public key id is ".toList ++ pk.Id ++ "\n".toList, none) := by
  have hne : ¬ (DefaultSSHBanner = ([] : Str)) := by decide
  have hName : lookupField pk ['N', 'a', 'm', 'e'] = some pk.Name := by
    unfold lookupField
    rw [if_neg (by decide), if_pos (by decide)]
  have hId : lookupField pk ['I', 'd'] = some pk.Id := by
    unfold lookupField
    rw [if_pos (by decide)]
  constructor
  · simp [Config.CompileBanner, h, hne]
  · simp [Config.CompileBanner, h, hne, parseTemplate_default, executeTemplate,
      hName, hId, List.append_assoc]

/-- Witness for C10 at the key used by the repository's own banner test. -/
theorem CompileBanner_empty_is_default_witness :
    Config.CompileBanner ⟨[], [], [], [], false, false, none, false, []⟩
      ⟨"0xdeadbeef".toList, "test-user".toList, [], []⟩ =
      ("Welcome to gitkit ".toList ++ "test-user".toList ++
        "\nYour public key id is ".toList ++ "0xdeadbeef".toList ++ "\n".toList, none) :=
  (CompileBanner_empty_is_default ⟨[], [], [], [], false, false, none, false, []⟩
    ⟨"0xdeadbeef".toList, "test-user".toList, [], []⟩ rfl).2

end Gitkit
